import Mathlib

/-!
Verification of the oxylabs-sdk-go Yandex SERP client (sync and async paths).

The embedding follows the two source files:
  * `serp/yandex.go` (sync `SerpClient` entry points) and the async
    `SerpClientAsync` entry points, both in `src/unnamed/part_000`;
  * `internal/utils.go` (`InList`, `ValidateUrl`).

External collaborators that the entry points call but whose code is outside
the provided sources (the transport `Req`, job submission `GetJobID`, the
poller `PollJobStatus`, the response normalizer `GetResp`, the default
setters `SetDefault*`, the `oxylabs` package validators, and the Go standard
library's `url.ParseRequestURI` and `json.Marshal`) are modelled as oracle
fields of an environment record `SerpEnv`, at the interface contracts the
spec gives for them. The entry points themselves are embedded faithfully
from the source, and additionally emit a trace of the observable events
(job-submission call, poller start, transport call, channel reads/writes)
so that claims about background tasks and channel discipline can be stated.
A caller-facing result channel is modelled as the list of values ever sent
on it.
-/

/-- Stand-in for the Go `*map[string]interface{}` parse-instructions
document; its contents are opaque to the claims. -/
def ParseInstr : Type := String

instance : DecidableEq ParseInstr := fun a b => instDecidableEqString a b

/-- JSON-able payload values, as they appear in the entry points' payload
maps: strings, integers, booleans, and the parse-instructions document. -/
inductive JVal : Type
  | s (v : String)
  | n (v : Int)
  | b (v : Bool)
  | pinstr (v : ParseInstr)
deriving DecidableEq

/-- A Go `context.Context`, abstracted to the two aspects the claims need:
whether a timeout was attached and whether it is cancelled/expired. -/
structure Context where
  timeout : Option Nat := none
  cancelled : Bool := false
deriving DecidableEq

/-- `context.Background()`. -/
def Context.background : Context := {}

/-- `context.WithTimeout(parent, d)` (the returned context). -/
def Context.withTimeout (c : Context) (d : Nat) : Context :=
  { c with timeout := some d }

/-- Modelled from the spec: `internal.DefaultTimeout`, the default timeout
constant of the `internal` package (not under src); its numeric value is
immaterial to every claim. -/
def DefaultTimeout : Nat := 50

/-- The parts of Go's `url.URL` that `internal.ValidateUrl` consults. -/
structure ParsedUrl where
  Scheme : String
  Host : String
deriving DecidableEq

/-- Opaque `*http.Response`. -/
structure HttpResp where
  tag : Nat
deriving DecidableEq

/-- Opaque caller-facing `*serp.Resp`. -/
structure Resp where
  tag : Nat
deriving DecidableEq

/-- `containsSub needle hay` : does `needle` occur contiguously in `hay`?
Embeds the semantics of Go `strings.Contains(hay, needle)` on rune lists. -/
def containsSub (needle : List Char) : List Char → Bool
  | [] => needle.isEmpty
  | c :: t => needle.isPrefixOf (c :: t) || containsSub needle t

/-- Go `strings.Contains(s, substr)`. -/
def stringContains (s substr : String) : Bool :=
  containsSub substr.toList s.toList

/-- `internal.InList` from `src/internal/utils.go`: membership scan. -/
def InList {T : Type} [DecidableEq T] (val : T) : List T → Bool
  | [] => false
  | item :: rest => if item = val then true else InList val rest

/-- `internal.ValidateUrl` from `src/internal/utils.go`, parameterized by
the standard library's `url.ParseRequestURI` (stdlib, outside src).
Returns `none` for a valid URL and `some msg` for the error. -/
def ValidateUrl (parseRequestURI : String → Except String ParsedUrl)
    (inputUrl host : String) : Option String :=
  if inputUrl = "" then some "URL parameter is empty"
  else
    match parseRequestURI inputUrl with
    | .error e => some ("failed to parse URL: " ++ e)
    | .ok parsedUrl =>
      if parsedUrl.Scheme = "" then some "URL is missing scheme"
      else if parsedUrl.Host = "" then some "URL is missing a host"
      else if ¬ stringContains parsedUrl.Host host then
        some ("URL does not belong to " ++ host)
      else none

/-- `YandexSearchOpts` (src lines 82-93); field defaults are Go zero
values, so `{}` is the Go `&YandexSearchOpts{}`. -/
structure YandexSearchOpts where
  Domain : String := ""
  StartPage : Int := 0
  Pages : Int := 0
  Limit : Int := 0
  Locale : String := ""
  GeoLocation : String := ""
  UserAgent : String := ""
  CallbackUrl : String := ""
  ParseInstructions : Option ParseInstr := none
  PollInterval : Int := 0
deriving DecidableEq

/-- `YandexUrlOpts` (src lines 176-182); `{}` is `&YandexUrlOpts{}`. -/
structure YandexUrlOpts where
  UserAgent : String := ""
  Render : String := ""
  CallbackUrl : String := ""
  ParseInstructions : Option ParseInstr := none
  PollInterval : Int := 0
deriving DecidableEq

/-- Modelled from the spec: the `oxylabs` package source tokens (not under
src). `oxylabs.YandexSearch`. -/
def YandexSearch : String := "yandex_search"

/-- Modelled from the spec: `oxylabs.YandexUrl`. -/
def YandexUrl : String := "yandex"

/-- Modelled from the spec: the `oxylabs.DOMAIN_*` constants named by the
accepted-domain list in src lines 14-21 (their values are opaque strings
and immaterial to the claims). -/
def DOMAIN_COM : String := "com"
def DOMAIN_RU : String := "ru"
def DOMAIN_UA : String := "ua"
def DOMAIN_BY : String := "by"
def DOMAIN_KZ : String := "kz"
def DOMAIN_TR : String := "tr"

/-- Modelled from the spec: the `oxylabs.LOCALE_*` constants named by the
accepted-locale list in src lines 22-33. -/
def LOCALE_EN : String := "en"
def LOCALE_RU : String := "ru"
def LOCALE_BY : String := "by"
def LOCALE_DE : String := "de"
def LOCALE_FR : String := "fr"
def LOCALE_ID : String := "id"
def LOCALE_KK : String := "kk"
def LOCALE_TT : String := "tt"
def LOCALE_TR : String := "tr"
def LOCALE_UK : String := "uk"

/-- `YandexSearchAcceptedDomainParameters` (src lines 14-21). -/
def YandexSearchAcceptedDomainParameters : List String :=
  [DOMAIN_COM, DOMAIN_RU, DOMAIN_UA, DOMAIN_BY, DOMAIN_KZ, DOMAIN_TR]

/-- `YandexSearchAcceptedLocaleParameters` (src lines 22-33). -/
def YandexSearchAcceptedLocaleParameters : List String :=
  [LOCALE_EN, LOCALE_RU, LOCALE_BY, LOCALE_DE, LOCALE_FR, LOCALE_ID,
   LOCALE_KK, LOCALE_TT, LOCALE_TR, LOCALE_UK]

/-- The external collaborators of the entry points, as oracle functions.
Each field is repository code outside src or Go standard library code,
modelled from the spec at its interface boundary (spec sections 4.2, 4.3
and 6):
  * `IsUserAgentValid`, `IsRenderValid`, `ValidateParseInstructions`:
    `oxylabs` package validators (a validator returns `none` on success);
  * `SetDefaultsSearch` / `SetDefaultsUrl`: the composition of the
    `internal.SetDefault*` calls the entry point makes;
  * `ParseRequestURI`: stdlib `url.ParseRequestURI`;
  * `JsonMarshal`: stdlib `json.Marshal` on the payload map;
  * `Req`: the transport, `request(context, body, method)`;
  * `GetJobID`: job submission; per the call sites in src it receives the
    marshalled payload only (no context parameter);
  * `PollJobStatus`: the poller summarized by its sink protocol (spec 4.3):
    exactly one terminal write to the error sink — `.error e` means it
    wrote `e` there, `.ok r` means it wrote `nil` there and `r` to the
    response sink;
  * `GetResp`: the result normalizer
    `normalize(rawHttpResponse, parse, customParser)`. -/
structure SerpEnv where
  IsUserAgentValid : String → Bool
  IsRenderValid : String → Bool
  ValidateParseInstructions : ParseInstr → Option String
  SetDefaultsSearch : YandexSearchOpts → YandexSearchOpts
  SetDefaultsUrl : YandexUrlOpts → YandexUrlOpts
  ParseRequestURI : String → Except String ParsedUrl
  JsonMarshal : List (String × JVal) → Except String String
  Req : Context → String → String → Except String HttpResp
  GetJobID : String → Except String String
  PollJobStatus : Context → String → Int → Except String HttpResp
  GetResp : HttpResp → Bool → Bool → Except String Resp

/-- `(*YandexSearchOpts).checkParameterValidity` (src lines 36-60).
Returns `none` when the parameters are valid, `some msg` otherwise. -/
def YandexSearchOpts.checkParameterValidity (env : SerpEnv)
    (opt : YandexSearchOpts) : Option String :=
  if ¬ InList opt.Domain YandexSearchAcceptedDomainParameters then
    some ("invalid domain parameter: " ++ opt.Domain)
  else if opt.Locale ≠ "" ∧
      ¬ InList opt.Locale YandexSearchAcceptedLocaleParameters then
    some ("invalid locale parameter: " ++ opt.Locale)
  else if ¬ env.IsUserAgentValid opt.UserAgent then
    some ("invalid user agent parameter: " ++ opt.UserAgent)
  else if opt.Limit ≤ 0 ∨ opt.Pages ≤ 0 ∨ opt.StartPage ≤ 0 then
    some "limit, pages and start_page parameters must be greater than 0"
  else
    match opt.ParseInstructions with
    | some p =>
      match env.ValidateParseInstructions p with
      | some e => some ("invalid parse instructions: " ++ e)
      | none => none
    | none => none

/-- `(*YandexUrlOpts).checkParameterValidity` (src lines 63-79). -/
def YandexUrlOpts.checkParameterValidity (env : SerpEnv)
    (opt : YandexUrlOpts) : Option String :=
  if ¬ env.IsUserAgentValid opt.UserAgent then
    some ("invalid user agent parameter: " ++ opt.UserAgent)
  else if opt.Render ≠ "" ∧ ¬ env.IsRenderValid opt.Render then
    some ("invalid render parameter: " ++ opt.Render)
  else
    match opt.ParseInstructions with
    | some p =>
      match env.ValidateParseInstructions p with
      | some e => some ("invalid parse instructions: " ++ e)
      | none => none
    | none => none

/-- The variadic-options idiom shared by every entry point (e.g. src lines
113-117): `opt := &Opts{}; if len(opts) > 0 && opts[len(opts)-1] != nil
{ opt = opts[len(opts)-1] }` — the last element if present and non-nil,
else the zero value. -/
def prepareOpts {O : Type} (opts : List (Option O)) (empty : O) : O :=
  match opts.getLast? with
  | some (some o) => o
  | _ => empty

/-- `customParserFlag` as set by every entry point's payload block: `false`,
flipped to `true` exactly when `opt.ParseInstructions != nil`. -/
def customParserFlag (pinstr : Option ParseInstr) : Bool :=
  pinstr.isSome

/-- Observable events of one entry-point call, in program order:
the transport call of the sync path, the job-submission call, the start of
the background poller goroutine, the orchestrator's reads of the internal
error and response channels, and the forwarding goroutine's send on the
caller-facing result channel. -/
inductive Ev : Type
  | ReqCall (ctx : Context) (body : String)
  | GetJobIDCall (body : String)
  | PollStart (ctx : Context) (jobID : String) (interval : Int)
  | ErrChanRead (v : Option String)
  | RespChanRead
  | RespChanWrite
deriving DecidableEq

/-- The kind of an event, with the data fields erased. -/
inductive EvKind : Type
  | ReqCall
  | GetJobIDCall
  | PollStart
  | ErrChanRead
  | RespChanRead
  | RespChanWrite
deriving DecidableEq

/-- Erase an event to its kind. -/
def Ev.kind : Ev → EvKind
  | .ReqCall _ _ => .ReqCall
  | .GetJobIDCall _ => .GetJobIDCall
  | .PollStart _ _ _ => .PollStart
  | .ErrChanRead _ => .ErrChanRead
  | .RespChanRead => .RespChanRead
  | .RespChanWrite => .RespChanWrite

/-- The context an event carries, when it carries one. -/
def Ev.ctxOf : Ev → Option Context
  | .ReqCall c _ => some c
  | .PollStart c _ _ => some c
  | _ => none

namespace SerpClient

/-- The payload map built by the sync `ScrapeYandexSearchCtx` (src lines
133-152). With parse instructions present, `parse = true` and the
instructions are added before marshalling. -/
def yandexSearchPayload (query : String) (opt : YandexSearchOpts) :
    List (String × JVal) :=
  let payload : List (String × JVal) :=
    [("source", .s YandexSearch), ("domain", .s opt.Domain),
     ("query", .s query), ("start_page", .n opt.StartPage),
     ("pages", .n opt.Pages), ("limit", .n opt.Limit),
     ("locale", .s opt.Locale), ("geo_location", .s opt.GeoLocation),
     ("user_agent_type", .s opt.UserAgent),
     ("callback_url", .s opt.CallbackUrl)]
  match opt.ParseInstructions with
  | some p =>
    payload ++ [("parse", .b true), ("parsing_instructions", .pinstr p)]
  | none => payload

/-- The payload map built by the sync `ScrapeYandexUrlCtx` (src lines
224-238). -/
def yandexUrlPayload (url : String) (opt : YandexUrlOpts) :
    List (String × JVal) :=
  let payload : List (String × JVal) :=
    [("source", .s YandexUrl), ("url", .s url),
     ("user_agent_type", .s opt.UserAgent), ("render", .s opt.Render),
     ("callback_url", .s opt.CallbackUrl)]
  match opt.ParseInstructions with
  | some p =>
    payload ++ [("parse", .b true), ("parsing_instructions", .pinstr p)]
  | none => payload

/-- Sync `(*SerpClient).ScrapeYandexSearchCtx` (src lines 108-173):
prepare options, set defaults, validate, build payload, marshal, one
transport round trip, normalize. Returns the result and the event trace. -/
def ScrapeYandexSearchCtx (env : SerpEnv) (ctx : Context) (query : String)
    (opts : List (Option YandexSearchOpts)) :
    Except String Resp × List Ev :=
  let opt := env.SetDefaultsSearch (prepareOpts opts {})
  match opt.checkParameterValidity env with
  | some e => (.error e, [])
  | none =>
    match env.JsonMarshal (yandexSearchPayload query opt) with
    | .error e => (.error ("error marshalling payload: " ++ e), [])
    | .ok jsonPayload =>
      match env.Req ctx jsonPayload "POST" with
      | .error e => (.error e, [.ReqCall ctx jsonPayload])
      | .ok httpResp =>
        match env.GetResp httpResp (customParserFlag opt.ParseInstructions)
            (customParserFlag opt.ParseInstructions) with
        | .error e => (.error e, [.ReqCall ctx jsonPayload])
        | .ok resp => (.ok resp, [.ReqCall ctx jsonPayload])

/-- Sync `(*SerpClient).ScrapeYandexSearch` (src lines 96-104): runs the
Ctx variant under `context.WithTimeout(context.Background(),
internal.DefaultTimeout)`. -/
def ScrapeYandexSearch (env : SerpEnv) (query : String)
    (opts : List (Option YandexSearchOpts)) :
    Except String Resp × List Ev :=
  ScrapeYandexSearchCtx env (Context.background.withTimeout DefaultTimeout)
    query opts

/-- Sync `(*SerpClient).ScrapeYandexUrlCtx` (src lines 197-259): validate
URL, prepare options, set defaults, validate, build payload, marshal, one
transport round trip, normalize. -/
def ScrapeYandexUrlCtx (env : SerpEnv) (ctx : Context) (url : String)
    (opts : List (Option YandexUrlOpts)) :
    Except String Resp × List Ev :=
  match ValidateUrl env.ParseRequestURI url "yandex" with
  | some e => (.error e, [])
  | none =>
    let opt := env.SetDefaultsUrl (prepareOpts opts {})
    match opt.checkParameterValidity env with
    | some e => (.error e, [])
    | none =>
      match env.JsonMarshal (yandexUrlPayload url opt) with
      | .error e => (.error ("error marshalling payload: " ++ e), [])
      | .ok jsonPayload =>
        match env.Req ctx jsonPayload "POST" with
        | .error e => (.error e, [.ReqCall ctx jsonPayload])
        | .ok httpResp =>
          match env.GetResp httpResp (customParserFlag opt.ParseInstructions)
              (customParserFlag opt.ParseInstructions) with
          | .error e => (.error e, [.ReqCall ctx jsonPayload])
          | .ok resp => (.ok resp, [.ReqCall ctx jsonPayload])

/-- Sync `(*SerpClient).ScrapeYandexUrl` (src lines 185-193). -/
def ScrapeYandexUrl (env : SerpEnv) (url : String)
    (opts : List (Option YandexUrlOpts)) :
    Except String Resp × List Ev :=
  ScrapeYandexUrlCtx env (Context.background.withTimeout DefaultTimeout)
    url opts

end SerpClient

namespace SerpClientAsync

/-- The payload map built by the async `ScrapeYandexSearchCtx` (src lines
316-334). Unlike the sync path, when parse instructions are present only
`parsing_instructions` is added; the `parse` key is set only inside the
marshal-error branch (src line 339), after marshalling, on a payload that
is then discarded — so it never reaches the marshalled bytes. -/
def yandexSearchPayload (query : String) (opt : YandexSearchOpts) :
    List (String × JVal) :=
  let payload : List (String × JVal) :=
    [("source", .s YandexSearch), ("domain", .s opt.Domain),
     ("query", .s query), ("start_page", .n opt.StartPage),
     ("pages", .n opt.Pages), ("limit", .n opt.Limit),
     ("locale", .s opt.Locale), ("geo_location", .s opt.GeoLocation),
     ("user_agent_type", .s opt.UserAgent),
     ("callback_url", .s opt.CallbackUrl)]
  match opt.ParseInstructions with
  | some p => payload ++ [("parsing_instructions", .pinstr p)]
  | none => payload

/-- The payload map built by the async `ScrapeYandexUrlCtx` (src lines
426-440); this one, like the sync path, does set `parse = true` before
marshalling. -/
def yandexUrlPayload (url : String) (opt : YandexUrlOpts) :
    List (String × JVal) :=
  let payload : List (String × JVal) :=
    [("source", .s YandexUrl), ("url", .s url),
     ("user_agent_type", .s opt.UserAgent), ("render", .s opt.Render),
     ("callback_url", .s opt.CallbackUrl)]
  match opt.ParseInstructions with
  | some p =>
    payload ++ [("parse", .b true), ("parsing_instructions", .pinstr p)]
  | none => payload

/-- Async `(*SerpClientAsync).ScrapeYandexSearchCtx` (src lines 287-378):
prepare options, set defaults, validate, build payload, marshal, submit
the job (`GetJobID`, called with the payload only — the context is not
passed), start the poller goroutine, block on the error channel, then read
the response channel, normalize, and forward the result into the
caller-facing channel from a second goroutine. The caller-facing channel
is modelled as the list of values ever sent on it. -/
def ScrapeYandexSearchCtx (env : SerpEnv) (ctx : Context) (query : String)
    (opts : List (Option YandexSearchOpts)) :
    Except String (List Resp) × List Ev :=
  let opt := env.SetDefaultsSearch (prepareOpts opts {})
  match opt.checkParameterValidity env with
  | some e => (.error e, [])
  | none =>
    match env.JsonMarshal (yandexSearchPayload query opt) with
    | .error e => (.error ("error marshalling payload: " ++ e), [])
    | .ok jsonPayload =>
      match env.GetJobID jsonPayload with
      | .error e => (.error e, [.GetJobIDCall jsonPayload])
      | .ok jobID =>
        match env.PollJobStatus ctx jobID opt.PollInterval with
        | .error e =>
          (.error e,
           [.GetJobIDCall jsonPayload,
            .PollStart ctx jobID opt.PollInterval,
            .ErrChanRead (some e)])
        | .ok httpResp =>
          match env.GetResp httpResp (customParserFlag opt.ParseInstructions)
              (customParserFlag opt.ParseInstructions) with
          | .error e =>
            (.error e,
             [.GetJobIDCall jsonPayload,
              .PollStart ctx jobID opt.PollInterval,
              .ErrChanRead none, .RespChanRead])
          | .ok resp =>
            (.ok [resp],
             [.GetJobIDCall jsonPayload,
              .PollStart ctx jobID opt.PollInterval,
              .ErrChanRead none, .RespChanRead, .RespChanWrite])

/-- Async `(*SerpClientAsync).ScrapeYandexSearch` (src lines 274-282). -/
def ScrapeYandexSearch (env : SerpEnv) (query : String)
    (opts : List (Option YandexSearchOpts)) :
    Except String (List Resp) × List Ev :=
  ScrapeYandexSearchCtx env (Context.background.withTimeout DefaultTimeout)
    query opts

/-- Async `(*SerpClientAsync).ScrapeYandexUrlCtx` (src lines 395-483):
same orchestration as the async search path, with URL validation first. -/
def ScrapeYandexUrlCtx (env : SerpEnv) (ctx : Context) (url : String)
    (opts : List (Option YandexUrlOpts)) :
    Except String (List Resp) × List Ev :=
  match ValidateUrl env.ParseRequestURI url "yandex" with
  | some e => (.error e, [])
  | none =>
    let opt := env.SetDefaultsUrl (prepareOpts opts {})
    match opt.checkParameterValidity env with
    | some e => (.error e, [])
    | none =>
      match env.JsonMarshal (yandexUrlPayload url opt) with
      | .error e => (.error ("error marshalling payload: " ++ e), [])
      | .ok jsonPayload =>
        match env.GetJobID jsonPayload with
        | .error e => (.error e, [.GetJobIDCall jsonPayload])
        | .ok jobID =>
          match env.PollJobStatus ctx jobID opt.PollInterval with
          | .error e =>
            (.error e,
             [.GetJobIDCall jsonPayload,
              .PollStart ctx jobID opt.PollInterval,
              .ErrChanRead (some e)])
          | .ok httpResp =>
            match env.GetResp httpResp (customParserFlag opt.ParseInstructions)
                (customParserFlag opt.ParseInstructions) with
            | .error e =>
              (.error e,
               [.GetJobIDCall jsonPayload,
                .PollStart ctx jobID opt.PollInterval,
                .ErrChanRead none, .RespChanRead])
            | .ok resp =>
              (.ok [resp],
               [.GetJobIDCall jsonPayload,
                .PollStart ctx jobID opt.PollInterval,
                .ErrChanRead none, .RespChanRead, .RespChanWrite])

/-- Async `(*SerpClientAsync).ScrapeYandexUrl` (src lines 382-390). -/
def ScrapeYandexUrl (env : SerpEnv) (url : String)
    (opts : List (Option YandexUrlOpts)) :
    Except String (List Resp) × List Ev :=
  ScrapeYandexUrlCtx env (Context.background.withTimeout DefaultTimeout)
    url opts

end SerpClientAsync

/-- Is this event a job-submission call? -/
def isGetJobIDCall : Ev → Bool
  | .GetJobIDCall _ => true
  | _ => false

/-- Is this event a send on the caller-facing result channel? -/
def isRespWrite : Ev → Bool
  | .RespChanWrite => true
  | _ => false

/-- Is this event a read of the internal error channel? -/
def isErrRead : Ev → Bool
  | .ErrChanRead _ => true
  | _ => false

/-- Scans a trace and checks that no read of the internal result channel
occurs before a read of the internal error channel that yielded `nil`:
a `RespChanRead` before any `ErrChanRead` fails; an `ErrChanRead none`
legitimizes everything after it; after an `ErrChanRead (some e)` the scan
keeps requiring that no result read occurs. -/
def errReadBeforeRespRead : List Ev → Bool
  | [] => true
  | Ev.RespChanRead :: _ => false
  | Ev.ErrChanRead none :: _ => true
  | _ :: rest => errReadBeforeRespRead rest

/-- C9: `ValidateUrl(inputUrl, host)` accepts exactly the non-empty URLs
that parse as a request URI with a non-empty scheme and a non-empty host
whose host contains the expected host string as a substring; in
particular a host that merely contains "yandex" anywhere, such as
"notyandex.example.com", is accepted. -/
theorem c9_validateUrl_accepts_iff :
    (∀ (p : String → Except String ParsedUrl) (u h : String),
      ValidateUrl p u h = none ↔
        (u ≠ "" ∧ ∃ pu, p u = .ok pu ∧ pu.Scheme ≠ "" ∧ pu.Host ≠ "" ∧
          stringContains pu.Host h = true)) ∧
    stringContains "notyandex.example.com" "yandex" = true ∧
    ValidateUrl (fun _ => .ok ⟨"https", "notyandex.example.com"⟩)
      "https://notyandex.example.com/search" "yandex" = none := by
  refine ⟨?_, by decide, by decide⟩
  intro p u h
  by_cases hu : u = ""
  · simp [ValidateUrl, hu]
  · cases hp : p u with
    | error e => simp [ValidateUrl, hu, hp]
    | ok pu =>
      by_cases hs : pu.Scheme = ""
      · simp [ValidateUrl, hu, hp, hs]
      · by_cases hh : pu.Host = ""
        · simp [ValidateUrl, hu, hp, hs, hh]
        · by_cases hc : stringContains pu.Host h
          · simp [ValidateUrl, hu, hp, hs, hh, hc]
          · simp [ValidateUrl, hu, hp, hs, hh, hc]

/-- C10: every variadic entry point consults only the last element of its
options list (earlier elements do not affect the call), and an empty list
or a nil last element yields the zero-valued options struct, to which the
defaults are then applied. -/
theorem c10_variadic_last_option_wins :
    (∀ (xs : List (Option YandexSearchOpts)) (o e : YandexSearchOpts),
      prepareOpts (xs ++ [some o]) e = o) ∧
    (∀ (xs : List (Option YandexSearchOpts)) (e : YandexSearchOpts),
      prepareOpts (xs ++ [none]) e = e) ∧
    (∀ (e : YandexSearchOpts),
      prepareOpts ([] : List (Option YandexSearchOpts)) e = e) ∧
    (∀ env ctx q xs (o : YandexSearchOpts),
      SerpClient.ScrapeYandexSearchCtx env ctx q (xs ++ [some o]) =
        SerpClient.ScrapeYandexSearchCtx env ctx q [some o]) ∧
    (∀ env ctx q xs (o : YandexSearchOpts),
      SerpClientAsync.ScrapeYandexSearchCtx env ctx q (xs ++ [some o]) =
        SerpClientAsync.ScrapeYandexSearchCtx env ctx q [some o]) ∧
    (∀ env ctx u xs (o : YandexUrlOpts),
      SerpClient.ScrapeYandexUrlCtx env ctx u (xs ++ [some o]) =
        SerpClient.ScrapeYandexUrlCtx env ctx u [some o]) ∧
    (∀ env ctx u xs (o : YandexUrlOpts),
      SerpClientAsync.ScrapeYandexUrlCtx env ctx u (xs ++ [some o]) =
        SerpClientAsync.ScrapeYandexUrlCtx env ctx u [some o]) := by
  refine ⟨?_, ?_, ?_, ?_, ?_, ?_, ?_⟩
  · intro xs o e; simp [prepareOpts, List.getLast?_concat]
  · intro xs e; simp [prepareOpts, List.getLast?_concat]
  · intro e; rfl
  · intro env ctx q xs o
    simp [SerpClient.ScrapeYandexSearchCtx, prepareOpts,
      List.getLast?_concat]
  · intro env ctx q xs o
    simp [SerpClientAsync.ScrapeYandexSearchCtx, prepareOpts,
      List.getLast?_concat]
  · intro env ctx u xs o
    simp [SerpClient.ScrapeYandexUrlCtx, prepareOpts,
      List.getLast?_concat]
  · intro env ctx u xs o
    simp [SerpClientAsync.ScrapeYandexUrlCtx, prepareOpts,
      List.getLast?_concat]

/-- A concrete parse-instructions document for counterexamples. -/
def piEx : ParseInstr := ("x" : String)

/-- Concrete options with parse instructions present, for exercising the
async search payload. -/
def optsPI : YandexSearchOpts :=
  { Domain := "com", StartPage := 1, Pages := 1, Limit := 10,
    UserAgent := "desktop", ParseInstructions := some piEx }

/-- C3: with parse instructions present, the payload the async
`ScrapeYandexSearchCtx` passes to `json.Marshal` contains no `parse` key
(it only gains `parsing_instructions`), while the sync path's payload maps
`parse` to `true` — the async search path omits the flag the claim
requires. -/
theorem c3_async_search_payload_lacks_parse_key :
    List.lookup "parse" (SerpClientAsync.yandexSearchPayload "q" optsPI) =
      none ∧
    List.lookup "parse" (SerpClient.yandexSearchPayload "q" optsPI) =
      some (.b true) := by
  constructor <;> rfl

/-- A well-behaved collaborator environment for witnesses: validation
passes after defaults, marshalling yields "body", submission yields job
"jid", the poller succeeds, and normalization succeeds. -/
def envW : SerpEnv where
  IsUserAgentValid := fun _ => true
  IsRenderValid := fun _ => true
  ValidateParseInstructions := fun _ => none
  SetDefaultsSearch := fun o =>
    { o with
      Domain := "com"
      StartPage := 1
      Pages := 1
      Limit := 10
      UserAgent := "desktop" }
  SetDefaultsUrl := fun o => { o with UserAgent := "desktop" }
  ParseRequestURI := fun _ => .ok ⟨"https", "yandex.com"⟩
  JsonMarshal := fun _ => .ok "body"
  Req := fun _ _ _ => .ok ⟨0⟩
  GetJobID := fun _ => .ok "jid"
  PollJobStatus := fun _ _ _ => .ok ⟨0⟩
  GetResp := fun _ _ _ => .ok ⟨0⟩

/-- C2: every async entry-point call yields either an error (and then no
channel) or a channel on which exactly one value is ever sent — never
both, never neither, never more than one value. -/
theorem c2_error_xor_single_value_channel (env : SerpEnv) (ctx : Context)
    (q u : String) (opts : List (Option YandexSearchOpts))
    (uopts : List (Option YandexUrlOpts)) :
    ((∃ e, (SerpClientAsync.ScrapeYandexSearchCtx env ctx q opts).1 =
        .error e) ∨
     (∃ r, (SerpClientAsync.ScrapeYandexSearchCtx env ctx q opts).1 =
        .ok [r])) ∧
    ((∃ e, (SerpClientAsync.ScrapeYandexUrlCtx env ctx u uopts).1 =
        .error e) ∨
     (∃ r, (SerpClientAsync.ScrapeYandexUrlCtx env ctx u uopts).1 =
        .ok [r])) := by
  constructor
  · simp only [SerpClientAsync.ScrapeYandexSearchCtx]
    repeat' split
    all_goals simp
  · simp only [SerpClientAsync.ScrapeYandexUrlCtx]
    repeat' split
    all_goals simp

/-- C6: in every async call, the orchestrator reads the internal result
channel only after an error-channel read that yielded `nil`, and the
caller-facing channel is written at most once. -/
theorem c6_err_read_precedes_resp_read (env : SerpEnv) (ctx : Context)
    (q u : String) (opts : List (Option YandexSearchOpts))
    (uopts : List (Option YandexUrlOpts)) :
    (errReadBeforeRespRead
       (SerpClientAsync.ScrapeYandexSearchCtx env ctx q opts).2 = true ∧
     (SerpClientAsync.ScrapeYandexSearchCtx env ctx q opts).2.countP
       isRespWrite ≤ 1) ∧
    (errReadBeforeRespRead
       (SerpClientAsync.ScrapeYandexUrlCtx env ctx u uopts).2 = true ∧
     (SerpClientAsync.ScrapeYandexUrlCtx env ctx u uopts).2.countP
       isRespWrite ≤ 1) := by
  constructor
  · simp only [SerpClientAsync.ScrapeYandexSearchCtx]
    repeat' split
    all_goals simp [errReadBeforeRespRead, List.countP, List.countP.go,
      isRespWrite]
  · simp only [SerpClientAsync.ScrapeYandexUrlCtx]
    repeat' split
    all_goals simp [errReadBeforeRespRead, List.countP, List.countP.go,
      isRespWrite]

/-- C7: a validation failure (parameter check, or URL check for the URL
entry points) is returned synchronously with an empty event trace: no
transport call, no job submission, no poller, no channel. -/
theorem c7_validation_error_is_synchronous (env : SerpEnv) (ctx : Context)
    (q u : String) (opts : List (Option YandexSearchOpts))
    (uopts : List (Option YandexUrlOpts)) (e e' e'' : String) :
    ((env.SetDefaultsSearch (prepareOpts opts {})).checkParameterValidity
        env = some e →
      SerpClient.ScrapeYandexSearchCtx env ctx q opts = (.error e, []) ∧
      SerpClientAsync.ScrapeYandexSearchCtx env ctx q opts =
        (.error e, [])) ∧
    (ValidateUrl env.ParseRequestURI u "yandex" = some e' →
      SerpClient.ScrapeYandexUrlCtx env ctx u uopts = (.error e', []) ∧
      SerpClientAsync.ScrapeYandexUrlCtx env ctx u uopts =
        (.error e', [])) ∧
    (ValidateUrl env.ParseRequestURI u "yandex" = none →
      (env.SetDefaultsUrl (prepareOpts uopts {})).checkParameterValidity
        env = some e'' →
      SerpClient.ScrapeYandexUrlCtx env ctx u uopts = (.error e'', []) ∧
      SerpClientAsync.ScrapeYandexUrlCtx env ctx u uopts =
        (.error e'', [])) := by
  refine ⟨?_, ?_, ?_⟩
  · intro h
    constructor
    · simp [SerpClient.ScrapeYandexSearchCtx, h]
    · simp [SerpClientAsync.ScrapeYandexSearchCtx, h]
  · intro h
    constructor
    · simp [SerpClient.ScrapeYandexUrlCtx, h]
    · simp [SerpClientAsync.ScrapeYandexUrlCtx, h]
  · intro h h2
    constructor
    · simp [SerpClient.ScrapeYandexUrlCtx, h, h2]
    · simp [SerpClientAsync.ScrapeYandexUrlCtx, h, h2]

/-- `envW` with a user-agent validator that rejects everything, so the
parameter check fails. -/
def envBadUA : SerpEnv := { envW with IsUserAgentValid := fun _ => false }

/-- C7 witness: with a failing user-agent check, both search entry points
return the validation error with an empty trace. -/
theorem c7_validation_error_is_synchronous_witness :
    SerpClient.ScrapeYandexSearchCtx envBadUA Context.background "q" [] =
      (.error "invalid user agent parameter: desktop", []) ∧
    SerpClientAsync.ScrapeYandexSearchCtx envBadUA Context.background
      "q" [] = (.error "invalid user agent parameter: desktop", []) :=
  (c7_validation_error_is_synchronous envBadUA Context.background "q" "u"
    [] [] "invalid user agent parameter: desktop" "x" "x").1 (by decide)

/-- C1: when job submission (`GetJobID`) fails, the async entry point
returns that error synchronously — no channel (the error side of the
return carries no channel value) and no poller task: the trace holds only
the submission call, and in particular no `PollStart` event. -/
theorem c1_submission_error_returns_synchronously (env : SerpEnv)
    (ctx : Context) (q u : String)
    (opts : List (Option YandexSearchOpts))
    (uopts : List (Option YandexUrlOpts)) (jp jp' e e' : String) :
    ((env.SetDefaultsSearch (prepareOpts opts {})).checkParameterValidity
        env = none →
      env.JsonMarshal (SerpClientAsync.yandexSearchPayload q
        (env.SetDefaultsSearch (prepareOpts opts {}))) = .ok jp →
      env.GetJobID jp = .error e →
      SerpClientAsync.ScrapeYandexSearchCtx env ctx q opts =
        (.error e, [.GetJobIDCall jp]) ∧
      ∀ ev ∈ (SerpClientAsync.ScrapeYandexSearchCtx env ctx q opts).2,
        ev.kind ≠ .PollStart) ∧
    (ValidateUrl env.ParseRequestURI u "yandex" = none →
      (env.SetDefaultsUrl (prepareOpts uopts {})).checkParameterValidity
        env = none →
      env.JsonMarshal (SerpClientAsync.yandexUrlPayload u
        (env.SetDefaultsUrl (prepareOpts uopts {}))) = .ok jp' →
      env.GetJobID jp' = .error e' →
      SerpClientAsync.ScrapeYandexUrlCtx env ctx u uopts =
        (.error e', [.GetJobIDCall jp']) ∧
      ∀ ev ∈ (SerpClientAsync.ScrapeYandexUrlCtx env ctx u uopts).2,
        ev.kind ≠ .PollStart) := by
  constructor
  · intro h1 h2 h3
    have hres : SerpClientAsync.ScrapeYandexSearchCtx env ctx q opts =
        (.error e, [.GetJobIDCall jp]) := by
      simp [SerpClientAsync.ScrapeYandexSearchCtx, h1, h2, h3]
    refine ⟨hres, ?_⟩
    rw [hres]
    simp [Ev.kind]
  · intro h0 h1 h2 h3
    have hres : SerpClientAsync.ScrapeYandexUrlCtx env ctx u uopts =
        (.error e', [.GetJobIDCall jp']) := by
      simp [SerpClientAsync.ScrapeYandexUrlCtx, h0, h1, h2, h3]
    refine ⟨hres, ?_⟩
    rw [hres]
    simp [Ev.kind]

/-- `envW` with a job submission that fails. -/
def envSubFail : SerpEnv := { envW with GetJobID := fun _ => .error "boom" }

/-- C1 witness: under a failing submission, both async entry points return
the submission error with only the submission call in the trace. -/
theorem c1_submission_error_returns_synchronously_witness :
    SerpClientAsync.ScrapeYandexSearchCtx envSubFail Context.background
      "q" [] = (.error "boom", [.GetJobIDCall "body"]) ∧
    SerpClientAsync.ScrapeYandexUrlCtx envSubFail Context.background
      "https://yandex.com/x" [] = (.error "boom", [.GetJobIDCall "body"]) :=
  ⟨((c1_submission_error_returns_synchronously envSubFail
      Context.background "q" "https://yandex.com/x" [] [] "body" "body"
      "boom" "boom").1 (by decide) rfl rfl).1,
   ((c1_submission_error_returns_synchronously envSubFail
      Context.background "q" "https://yandex.com/x" [] [] "body" "body"
      "boom" "boom").2 (by decide) (by decide) rfl rfl).1⟩

/-- C5: once the poller has been started, the orchestrator performs
exactly one read of the internal error channel before returning; when
that read yields an error, the call returns it synchronously (no channel,
no send on the result channel) — the trace is exactly submission, poller
start, error read. -/
theorem c5_poll_error_propagates_synchronously (env : SerpEnv)
    (ctx : Context) (q u : String)
    (opts : List (Option YandexSearchOpts))
    (uopts : List (Option YandexUrlOpts)) (jp jp' jid jid' e e' : String) :
    ((env.SetDefaultsSearch (prepareOpts opts {})).checkParameterValidity
        env = none →
      env.JsonMarshal (SerpClientAsync.yandexSearchPayload q
        (env.SetDefaultsSearch (prepareOpts opts {}))) = .ok jp →
      env.GetJobID jp = .ok jid →
      (SerpClientAsync.ScrapeYandexSearchCtx env ctx q opts).2.countP
        isErrRead = 1 ∧
      (env.PollJobStatus ctx jid
          (env.SetDefaultsSearch (prepareOpts opts {})).PollInterval =
            .error e →
        SerpClientAsync.ScrapeYandexSearchCtx env ctx q opts =
          (.error e,
           [.GetJobIDCall jp,
            .PollStart ctx jid
              (env.SetDefaultsSearch (prepareOpts opts {})).PollInterval,
            .ErrChanRead (some e)]))) ∧
    (ValidateUrl env.ParseRequestURI u "yandex" = none →
      (env.SetDefaultsUrl (prepareOpts uopts {})).checkParameterValidity
        env = none →
      env.JsonMarshal (SerpClientAsync.yandexUrlPayload u
        (env.SetDefaultsUrl (prepareOpts uopts {}))) = .ok jp' →
      env.GetJobID jp' = .ok jid' →
      (SerpClientAsync.ScrapeYandexUrlCtx env ctx u uopts).2.countP
        isErrRead = 1 ∧
      (env.PollJobStatus ctx jid'
          (env.SetDefaultsUrl (prepareOpts uopts {})).PollInterval =
            .error e' →
        SerpClientAsync.ScrapeYandexUrlCtx env ctx u uopts =
          (.error e',
           [.GetJobIDCall jp',
            .PollStart ctx jid'
              (env.SetDefaultsUrl (prepareOpts uopts {})).PollInterval,
            .ErrChanRead (some e')]))) := by
  constructor
  · intro h1 h2 h3
    constructor
    · simp only [SerpClientAsync.ScrapeYandexSearchCtx, h1, h2, h3]
      repeat' split
      all_goals simp [List.countP, List.countP.go, isErrRead]
    · intro hp
      simp [SerpClientAsync.ScrapeYandexSearchCtx, h1, h2, h3, hp]
  · intro h0 h1 h2 h3
    constructor
    · simp only [SerpClientAsync.ScrapeYandexUrlCtx, h0, h1, h2, h3]
      repeat' split
      all_goals simp [List.countP, List.countP.go, isErrRead]
    · intro hp
      simp [SerpClientAsync.ScrapeYandexUrlCtx, h0, h1, h2, h3, hp]

/-- `envW` with a poller that reports a failure through the error sink. -/
def envPollFail : SerpEnv :=
  { envW with PollJobStatus := fun _ _ _ => .error "job failed" }

/-- C5 witness: with a failing poll, the async search entry point returns
the poll error synchronously and its trace reads the error channel once. -/
theorem c5_poll_error_propagates_synchronously_witness :
    (SerpClientAsync.ScrapeYandexSearchCtx envPollFail Context.background
      "q" []).2.countP isErrRead = 1 ∧
    SerpClientAsync.ScrapeYandexSearchCtx envPollFail Context.background
      "q" [] =
      (.error "job failed",
       [.GetJobIDCall "body", .PollStart Context.background "jid" 0,
        .ErrChanRead (some "job failed")]) := by
  have h := (c5_poll_error_propagates_synchronously envPollFail
    Context.background "q" "u" [] [] "body" "body" "jid" "jid"
    "job failed" "x").1 (by decide) rfl rfl
  exact ⟨h.1, h.2 rfl⟩

/-- C8: each non-context entry point equals its Ctx counterpart run under
`context.WithTimeout(context.Background(), internal.DefaultTimeout)`,
and each Ctx variant passes the caller's context through unchanged: every
event of its trace that carries a context carries exactly the supplied
one. -/
theorem c8_default_timeout_wrappers (env : SerpEnv) (ctx : Context)
    (q u : String) (opts : List (Option YandexSearchOpts))
    (uopts : List (Option YandexUrlOpts)) :
    (SerpClient.ScrapeYandexSearch env q opts =
      SerpClient.ScrapeYandexSearchCtx env
        (Context.background.withTimeout DefaultTimeout) q opts) ∧
    (SerpClient.ScrapeYandexUrl env u uopts =
      SerpClient.ScrapeYandexUrlCtx env
        (Context.background.withTimeout DefaultTimeout) u uopts) ∧
    (SerpClientAsync.ScrapeYandexSearch env q opts =
      SerpClientAsync.ScrapeYandexSearchCtx env
        (Context.background.withTimeout DefaultTimeout) q opts) ∧
    (SerpClientAsync.ScrapeYandexUrl env u uopts =
      SerpClientAsync.ScrapeYandexUrlCtx env
        (Context.background.withTimeout DefaultTimeout) u uopts) ∧
    (∀ c body, Ev.ReqCall c body ∈
        (SerpClient.ScrapeYandexSearchCtx env ctx q opts).2 → c = ctx) ∧
    (∀ c body, Ev.ReqCall c body ∈
        (SerpClient.ScrapeYandexUrlCtx env ctx u uopts).2 → c = ctx) ∧
    (∀ c jid i, Ev.PollStart c jid i ∈
        (SerpClientAsync.ScrapeYandexSearchCtx env ctx q opts).2 →
      c = ctx) ∧
    (∀ c jid i, Ev.PollStart c jid i ∈
        (SerpClientAsync.ScrapeYandexUrlCtx env ctx u uopts).2 →
      c = ctx) := by
  refine ⟨rfl, rfl, rfl, rfl, ?_, ?_, ?_, ?_⟩
  · intro c body hm
    simp only [SerpClient.ScrapeYandexSearchCtx] at hm
    repeat' split at hm
    all_goals simp_all
  · intro c body hm
    simp only [SerpClient.ScrapeYandexUrlCtx] at hm
    repeat' split at hm
    all_goals simp_all
  · intro c jid i hm
    simp only [SerpClientAsync.ScrapeYandexSearchCtx] at hm
    repeat' split at hm
    all_goals simp_all
  · intro c jid i hm
    simp only [SerpClientAsync.ScrapeYandexUrlCtx] at hm
    repeat' split at hm
    all_goals simp_all

/-- C8 witness: the transport-call event of a concrete sync call under the
default-timeout context carries exactly that context. -/
theorem c8_default_timeout_wrappers_witness :
    Context.background.withTimeout DefaultTimeout =
      Context.background.withTimeout DefaultTimeout :=
  (c8_default_timeout_wrappers envW
    (Context.background.withTimeout DefaultTimeout) "q" "u" []
    []).2.2.2.2.1
    (Context.background.withTimeout DefaultTimeout) "body" (by decide)

/-- A context that is already cancelled. -/
def ctxCancelled : Context := { cancelled := true }

/-- `envW` with a poller that honors the context it is handed: a cancelled
context makes it deliver a cancellation error through the error sink. -/
def envCtxPoll : SerpEnv :=
  { envW with
    PollJobStatus := fun c _ _ =>
      if c.cancelled then .error "context canceled" else .ok ⟨0⟩ }

/-- C4 counterexample: calling the async search entry point with an
already-cancelled context does not abort job submission — the submission
call still happens (and the poller is even started): the trace begins with
`GetJobIDCall`, because src line 344 passes `GetJobID` the payload only,
never the context. The cancellation surfaces only later, from the polling
stage. -/
theorem c4_counterexample_submission_not_aborted :
    (SerpClientAsync.ScrapeYandexSearchCtx envCtxPoll ctxCancelled
      "q" []).2 =
      [.GetJobIDCall "body", .PollStart ctxCancelled "jid" 0,
       .ErrChanRead (some "context canceled")] ∧
    Ev.GetJobIDCall "body" ∈
      (SerpClientAsync.ScrapeYandexSearchCtx envCtxPoll ctxCancelled
        "q" []).2 := by
  constructor <;> decide

/-- C4 amended: the job-submission round trip receives only the marshalled
payload, never the caller's context, so its outcome and occurrence are
identical under any two contexts (cancelled or not); the context is
honored from the polling stage onward, which receives the caller's
context verbatim. -/
theorem c4_amended_submission_ignores_context (env : SerpEnv)
    (ctx ctx' : Context) (q u : String)
    (opts : List (Option YandexSearchOpts))
    (uopts : List (Option YandexUrlOpts)) :
    ((SerpClientAsync.ScrapeYandexSearchCtx env ctx q opts).2.filter
        isGetJobIDCall =
      (SerpClientAsync.ScrapeYandexSearchCtx env ctx' q opts).2.filter
        isGetJobIDCall) ∧
    ((SerpClientAsync.ScrapeYandexUrlCtx env ctx u uopts).2.filter
        isGetJobIDCall =
      (SerpClientAsync.ScrapeYandexUrlCtx env ctx' u uopts).2.filter
        isGetJobIDCall) ∧
    (∀ c jid i, Ev.PollStart c jid i ∈
        (SerpClientAsync.ScrapeYandexSearchCtx env ctx q opts).2 →
      c = ctx) ∧
    (∀ c jid i, Ev.PollStart c jid i ∈
        (SerpClientAsync.ScrapeYandexUrlCtx env ctx u uopts).2 →
      c = ctx) := by
  refine ⟨?_, ?_, ?_, ?_⟩
  · simp only [SerpClientAsync.ScrapeYandexSearchCtx]
    repeat' split
    all_goals simp [List.filter, isGetJobIDCall]
  · simp only [SerpClientAsync.ScrapeYandexUrlCtx]
    repeat' split
    all_goals simp [List.filter, isGetJobIDCall]
  · intro c jid i hm
    simp only [SerpClientAsync.ScrapeYandexSearchCtx] at hm
    repeat' split at hm
    all_goals simp_all
  · intro c jid i hm
    simp only [SerpClientAsync.ScrapeYandexUrlCtx] at hm
    repeat' split at hm
    all_goals simp_all

/-- C4 amended witness: at a concrete call whose trace does contain a
poller-start event, that event's context is the caller's context. -/
theorem c4_amended_submission_ignores_context_witness :
    ctxCancelled = ctxCancelled :=
  (c4_amended_submission_ignores_context envCtxPoll ctxCancelled
    ctxCancelled "q" "u" [] []).2.2.1 ctxCancelled "jid" 0 (by decide)
